import Mathlib

/-!
Verification development for the seccompiler binary-filter compiler
(src/seccompiler/src/lib.rs, function compile_bpf).

The embedding models compile_bpf as an executable Lean function over

  * the parsed policy document (the BpfJson map, given in its iteration
    order as an association list),
  * a Backend structure holding the behaviour of the external libseccomp
    calls (seccomp_init, seccomp_arch_add, seccomp_syscall_resolve_name,
    seccomp_rule_add, seccomp_rule_add_array, seccomp_export_bpf),
  * a SysFlags structure injecting success or failure of the OS calls
    (memfd_create, rewind, metadata, read_exact, File::create, bincode),
  * an iteration-order function for the output HashMap, since the std
    HashMap used for bpf_map has an unspecified, per-process randomized
    iteration order that bincode serializes entries in.

The run result records the terminal outcome (Ok, a typed CompilationError,
or a panic from the .unwrap() on metadata), the sequence of external calls
made, the accumulated name-to-program map in insertion order and the
serialized output bytes.

The memfd transfer buffer is modelled at the granularity of 8-byte
instruction words (the backend export always writes whole sock_filter
instructions, 8 bytes each), as a pair of a word list (the file content)
and a position (the file offset in words).

The types and bindings modules of the crate are not part of the provided
source; the pieces of them that the claims need (the Action and operator
enumerations, token parsing, TargetArch parsing, MINUS_EEXIST) are
modelled from the spec and marked as such in their doc comments.
-/

namespace Seccomp

/-- Modelled from the spec: the Action enumeration of the missing types
module (spec section 3): allow, kill-process, kill-thread, trap, errno,
trace, log, notify. Associated numeric parameters such as the errno value
are not modelled since no claim depends on them. -/
inductive Action
  | allow
  | killProcess
  | killThread
  | trap
  | errno
  | trace
  | log
  | notify
deriving DecidableEq, Repr

/-- Modelled from the spec: the closed comparison-operator enumeration of
the missing types module (spec section 3): equal, not-equal, greater-than,
greater-or-equal, less-than, less-or-equal, masked-equal. -/
inductive CmpOp
  | eq
  | ne
  | gt
  | ge
  | lt
  | le
  | maskedEq
deriving DecidableEq, Repr

/-- An argument comparator (the scmp_arg_cmp payload of the missing types
module): argument index, operator, value and optional mask datum. -/
structure ArgCmp where
  index : Nat
  op : CmpOp
  val : Nat
  comp : Option Nat
deriving DecidableEq, Repr

/-- A parsed syscall rule: a syscall name and an optional list of
argument conditions, mirroring SyscallRule of the types module. -/
structure SyscallRule where
  syscall : String
  args : Option (List ArgCmp)
deriving DecidableEq, Repr

/-- A parsed filter group: default action, filter action and the rule
list, mirroring the per-group value of BpfJson. -/
structure Filter where
  default_action : Action
  filter_action : Action
  filter : List SyscallRule
deriving DecidableEq, Repr

/-- Modelled from the spec: the closed TargetArch enumeration of the
missing types module (spec section 3). -/
inductive TargetArch
  | x86_64
  | aarch64
deriving DecidableEq, Repr

/-- Modelled from the spec: TargetArch FromStr of the missing types
module, parsing the canonical architecture token and failing on anything
else. -/
def TargetArch.fromStr : String → Option TargetArch
  | "x86_64" => some TargetArch.x86_64
  | "aarch64" => some TargetArch.aarch64
  | _ => none

/-- A rule as recorded inside a backend context: either an unconditional
rule (seccomp_rule_add with zero comparators) or a conjunctive array rule
(seccomp_rule_add_array with the full comparator array). -/
inductive RuleEntry
  | uncond (action : Action) (sys : Int)
  | arr (action : Action) (sys : Int) (cmps : List ArgCmp)
deriving DecidableEq, Repr

/-- One observable external call made by compile_bpf, in order. -/
inductive Event
  | memfdCreate
  | initCtx (defaultAction : Action)
  | archAdd (a : TargetArch)
  | resolve (name : String)
  | ruleAdd (action : Action) (sys : Int)
  | ruleAddArray (action : Action) (sys : Int) (cmps : List ArgCmp)
  | exportBpf (g : Nat)
  | outputCreate
deriving DecidableEq, Repr

/-- The CompilationError enumeration of lib.rs lines 21 to 51, payloads
elided (they carry only OS or serde error values). The spelling of
IntputOpen preserves the spelling in the source. -/
inductive CompilationError
  | IntputOpen
  | InputRead
  | JsonDeserialize
  | ArchParse
  | LibSeccompContext
  | LibSeccompAddArch
  | LibSeccompResolveSyscall
  | LibSeccompAddRule
  | LibSeccompExport
  | MemfdCreate
  | MemfdRewind
  | MemfdRead
  | OutputCreate
  | BincodeSerialize
deriving DecidableEq, Repr

/-- Terminal outcome of a run: Ok, a typed error, or a Rust panic (the
metadata().unwrap() on line 163 is the one panic site in compile_bpf). -/
inductive Outcome
  | ok
  | err (e : CompilationError)
  | panicked
deriving DecidableEq, Repr

/-- Result of one step of the pipeline that on success yields a value. -/
inductive StepResult (α : Type)
  | ok (a : α)
  | err (e : CompilationError)
  | panicked
deriving DecidableEq, Repr

/-- Behaviour of the external libseccomp backend, indexed where relevant
by the group number g (the per-group context) and the rule number i
within the group. exportProg gives the instruction words the backend
writes for a context holding a default action, a registered architecture
and a list of added rule entries. -/
structure Backend where
  initOk : Nat → Bool
  archAddRet : Nat → Int
  resolve : String → Option Int
  ruleAddRet : Nat → Nat → Int
  exportRet : Nat → Int
  exportProg : Action → TargetArch → List RuleEntry → List Nat

/-- Success or failure of the OS-level calls of compile_bpf, indexed by
group number for the per-group calls. -/
structure SysFlags where
  memfdCreateOk : Bool
  rewind1Ok : Nat → Bool
  metadataOk : Nat → Bool
  readOk : Nat → Bool
  rewind2Ok : Nat → Bool
  outputCreateOk : Bool
  serializeOk : Bool

/-- Modelled from the spec: MINUS_EEXIST of the missing bindings module,
the negated EEXIST errno (17 on Linux), the libseccomp return value for
an architecture that is already registered (spec section 4.3 step 2). -/
def MINUS_EEXIST : Int := -17

/-- The architecture-registration check of lib.rs lines 96 to 99: a
return value that is neither 0 nor MINUS_EEXIST is the LibSeccompAddArch
error, anything else is success. -/
def archAddCheck (r : Int) : Option CompilationError :=
  if r ≠ 0 ∧ r ≠ MINUS_EEXIST then some CompilationError.LibSeccompAddArch else none

/-- Write prog into the buffer at the current position, extending the
content as needed, and advance the position (write semantics of the
memfd file descriptor used by seccomp_export_bpf). -/
def writeAt (buf : List Nat × Nat) (prog : List Nat) : List Nat × Nat :=
  (buf.1.take buf.2 ++ prog ++ buf.1.drop (buf.2 + prog.length),
   buf.2 + prog.length)

/-- The per-rule loop body of lib.rs lines 102 to 151: resolve the
syscall name (error LibSeccompResolveSyscall on failure), then add the
rule: unconditionally when basic is set or args is absent, as a single
conjunctive array call when args is present. Returns the events emitted
and either the rule entries added to the context or the first error. -/
def processRules (B : Backend) (basic : Bool) (g : Nat) (fact : Action) :
    List SyscallRule → Nat → List Event × Except CompilationError (List RuleEntry)
  | [], _ => ([], Except.ok [])
  | r :: rs, i =>
    match B.resolve r.syscall with
    | none => ([Event.resolve r.syscall], Except.error CompilationError.LibSeccompResolveSyscall)
    | some sys =>
      let call :=
        if basic then (Event.ruleAdd fact sys, RuleEntry.uncond fact sys)
        else
          match r.args with
          | some cmps => (Event.ruleAddArray fact sys cmps, RuleEntry.arr fact sys cmps)
          | none => (Event.ruleAdd fact sys, RuleEntry.uncond fact sys)
      if B.ruleAddRet g i ≠ 0 then
        ([Event.resolve r.syscall, call.1], Except.error CompilationError.LibSeccompAddRule)
      else
        let rest := processRules B basic g fact rs (i + 1)
        (Event.resolve r.syscall :: call.1 :: rest.1, rest.2.map (fun es => call.2 :: es))

/-- The per-group body of lib.rs lines 81 to 175: create the context
(LibSeccompContext on null), register the architecture (tolerating 0 and
MINUS_EEXIST), process the rules, export to the memfd at its current
position, rewind, query metadata via unwrap (a failure there panics),
read back size words, rewind again. On success yields the stored program
and the new buffer. -/
def processGroup (B : Backend) (io' : SysFlags) (arch : TargetArch) (basic : Bool)
    (g : Nat) (f : Filter) (buf : List Nat × Nat) :
    List Event × StepResult (List Nat × (List Nat × Nat)) :=
  let ev0 := [Event.initCtx f.default_action]
  if ¬ B.initOk g then (ev0, StepResult.err CompilationError.LibSeccompContext)
  else
    let ev1 := ev0 ++ [Event.archAdd arch]
    match archAddCheck (B.archAddRet g) with
    | some e => (ev1, StepResult.err e)
    | none =>
      match processRules B basic g f.filter_action f.filter 0 with
      | (revs, Except.error e) => (ev1 ++ revs, StepResult.err e)
      | (revs, Except.ok entries) =>
        let ev2 := ev1 ++ revs ++ [Event.exportBpf g]
        if B.exportRet g ≠ 0 then (ev2, StepResult.err CompilationError.LibSeccompExport)
        else
          let buf2 := writeAt buf (B.exportProg f.default_action arch entries)
          if ¬ io'.rewind1Ok g then (ev2, StepResult.err CompilationError.MemfdRewind)
          else
            let buf3 := (buf2.1, 0)
            if ¬ io'.metadataOk g then (ev2, StepResult.panicked)
            else
              let size := buf3.1.length
              if ¬ io'.readOk g then (ev2, StepResult.err CompilationError.MemfdRead)
              else
                let bpf := (buf3.1.drop buf3.2).take size
                let buf4 := (buf3.1, buf3.2 + size)
                if ¬ io'.rewind2Ok g then (ev2, StepResult.err CompilationError.MemfdRewind)
                else (ev2, StepResult.ok (bpf, (buf4.1, 0)))

/-- Result of the group loop: events, the insertion-ordered bpf_map and
the loop status. -/
structure GroupsResult where
  events : List Event
  artifact : List (String × List Nat)
  status : Outcome
deriving DecidableEq, Repr

/-- The group loop of lib.rs lines 81 to 175 over the document in its
iteration order, threading the single shared memfd buffer from group to
group. -/
def compileGroups (B : Backend) (io' : SysFlags) (arch : TargetArch) (basic : Bool) :
    List (String × Filter) → Nat → (List Nat × Nat) → GroupsResult
  | [], _, _ => ⟨[], [], Outcome.ok⟩
  | (name, f) :: rest, g, buf =>
    match processGroup B io' arch basic g f buf with
    | (evs, StepResult.ok (bpf, buf2)) =>
      let r := compileGroups B io' arch basic rest (g + 1) buf2
      ⟨evs ++ r.events, (name, bpf) :: r.artifact, r.status⟩
    | (evs, StepResult.err e) => ⟨evs, [], Outcome.err e⟩
    | (evs, StepResult.panicked) => ⟨evs, [], Outcome.panicked⟩

/-- Eight little-endian bytes of a 64-bit value, the fixint encoding
bincode uses for u64. -/
def u64le (n : Nat) : List Nat :=
  [n % 256, n / 256 % 256, n / 256 ^ 2 % 256, n / 256 ^ 3 % 256,
   n / 256 ^ 4 % 256, n / 256 ^ 5 % 256, n / 256 ^ 6 % 256, n / 256 ^ 7 % 256]

/-- Bincode encoding of a string: u64 byte length then the bytes (names
are ASCII here, so character codes are the UTF-8 bytes). -/
def serString (s : String) : List Nat :=
  u64le s.length ++ s.toList.map Char.toNat

/-- Bincode encoding of a program Vec of u64 words: u64 element count
then each word little-endian. -/
def serProg (p : List Nat) : List Nat :=
  u64le p.length ++ (p.map u64le).flatten

/-- Bincode encoding of the bpf_map HashMap in a given entry order: u64
entry count then each name and program (lib.rs line 179). -/
def serializeArtifact (m : List (String × List Nat)) : List Nat :=
  u64le m.length ++ (m.map (fun kv => serString kv.1 ++ serProg kv.2)).flatten

/-- The full result of a run of compile_bpf: terminal outcome, event
sequence, the insertion-ordered bpf_map accumulated before the terminal
step, and the serialized artifact bytes on success. -/
structure RunResult where
  outcome : Outcome
  events : List Event
  artifact : List (String × List Nat)
  output : Option (List Nat)
deriving DecidableEq, Repr

/-- lib.rs lines 70 to 180 after input parsing: create the single memfd
(lines 70 to 78), run the group loop over it, then create the output
file and bincode-serialize the map (lines 177 to 179). iter is the
iteration order of the output std HashMap, which is unspecified and
varies from process to process; bincode writes entries in that order. -/
def compileBpfCore (B : Backend) (io' : SysFlags) (doc : List (String × Filter))
    (arch : TargetArch) (basic : Bool)
    (iter : List (String × List Nat) → List (String × List Nat)) : RunResult :=
  if ¬ io'.memfdCreateOk then ⟨Outcome.err CompilationError.MemfdCreate, [], [], none⟩
  else
    let r := compileGroups B io' arch basic doc 0 ([], 0)
    let evs := Event.memfdCreate :: r.events
    match r.status with
    | Outcome.ok =>
      if ¬ io'.outputCreateOk then
        ⟨Outcome.err CompilationError.OutputCreate, evs ++ [Event.outputCreate], r.artifact, none⟩
      else if ¬ io'.serializeOk then
        ⟨Outcome.err CompilationError.BincodeSerialize, evs ++ [Event.outputCreate], r.artifact, none⟩
      else
        ⟨Outcome.ok, evs ++ [Event.outputCreate], r.artifact,
         some (serializeArtifact (iter r.artifact))⟩
    | Outcome.err e => ⟨Outcome.err e, evs, r.artifact, none⟩
    | Outcome.panicked => ⟨Outcome.panicked, evs, r.artifact, none⟩

/-- A raw (shape-valid, token-unchecked) argument condition as it stands
in the JSON document. -/
structure RawCond where
  index : Nat
  op : String
  val : Nat
  comp : Option Nat
deriving DecidableEq, Repr

/-- A raw rule as it stands in the JSON document. -/
structure RawRule where
  syscall : String
  args : Option (List RawCond)
deriving DecidableEq, Repr

/-- A raw filter group as it stands in the JSON document. -/
structure RawFilter where
  default_action : String
  filter_action : String
  filter : List RawRule
deriving DecidableEq, Repr

/-- A raw document: group names to raw filters, in iteration order. -/
def RawDocument := List (String × RawFilter)

/-- Modelled from the spec: action-token parsing of the missing types
module, over the closed token set of spec sections 3 and 8. -/
def actionOfToken : String → Option Action
  | "allow" => some Action.allow
  | "kill-process" => some Action.killProcess
  | "kill-thread" => some Action.killThread
  | "trap" => some Action.trap
  | "errno" => some Action.errno
  | "trace" => some Action.trace
  | "log" => some Action.log
  | "notify" => some Action.notify
  | _ => none

/-- Modelled from the spec: operator-token parsing of the missing types
module, over the closed token set of spec section 3. -/
def opOfToken : String → Option CmpOp
  | "equal" => some CmpOp.eq
  | "not-equal" => some CmpOp.ne
  | "greater-than" => some CmpOp.gt
  | "greater-or-equal" => some CmpOp.ge
  | "less-than" => some CmpOp.lt
  | "less-or-equal" => some CmpOp.le
  | "masked-equal" => some CmpOp.maskedEq
  | _ => none

/-- Parse one raw condition, failing on an unknown operator token. -/
def parseCond (c : RawCond) : Option ArgCmp :=
  match opOfToken c.op with
  | none => none
  | some o => some ⟨c.index, o, c.val, c.comp⟩

/-- Parse a raw condition list, all-or-nothing. -/
def parseConds : List RawCond → Option (List ArgCmp)
  | [] => some []
  | c :: cs =>
    match parseCond c, parseConds cs with
    | some a, some as' => some (a :: as')
    | _, _ => none

/-- Parse one raw rule, keeping the syscall name verbatim. -/
def parseRule (r : RawRule) : Option SyscallRule :=
  match r.args with
  | none => some ⟨r.syscall, none⟩
  | some cs =>
    match parseConds cs with
    | none => none
    | some as' => some ⟨r.syscall, some as'⟩

/-- Parse a raw rule list, all-or-nothing. -/
def parseRules : List RawRule → Option (List SyscallRule)
  | [] => some []
  | r :: rs =>
    match parseRule r, parseRules rs with
    | some a, some as' => some (a :: as')
    | _, _ => none

/-- Parse one raw filter group, failing on unknown action tokens. -/
def parseFilter (f : RawFilter) : Option Filter :=
  match actionOfToken f.default_action, actionOfToken f.filter_action,
      parseRules f.filter with
  | some d, some a, some rs => some ⟨d, a, rs⟩
  | _, _, _ => none

/-- Modelled from the spec: deserialization of BpfJson (serde in the
missing types module). The JSON shape is already captured by RawDocument;
any unknown enumeration token makes the whole parse fail, which
compile_bpf reports as the JsonDeserialize error. -/
def parseDoc : RawDocument → Option (List (String × Filter))
  | [] => some []
  | (n, f) :: rest =>
    match parseFilter f, parseDoc rest with
    | some pf, some prest => some ((n, pf) :: prest)
    | _, _ => none

/-- The input stage of compile_bpf: File::open can fail, read_to_string
can fail, the text can fail to deserialize, or a shape-valid raw
document is obtained. -/
inductive InputSrc
  | openFail
  | readFail
  | malformed
  | wellFormed (raw : RawDocument)

/-- compile_bpf of lib.rs lines 53 to 181: input reading and JSON
deserialization (lines 59 to 65), architecture parsing (line 67), then
the core pipeline. -/
def compile_bpf (B : Backend) (io' : SysFlags) (input : InputSrc) (archTok : String)
    (basic : Bool) (iter : List (String × List Nat) → List (String × List Nat)) :
    RunResult :=
  match input with
  | InputSrc.openFail => ⟨Outcome.err CompilationError.IntputOpen, [], [], none⟩
  | InputSrc.readFail => ⟨Outcome.err CompilationError.InputRead, [], [], none⟩
  | InputSrc.malformed => ⟨Outcome.err CompilationError.JsonDeserialize, [], [], none⟩
  | InputSrc.wellFormed raw =>
    match parseDoc raw with
    | none => ⟨Outcome.err CompilationError.JsonDeserialize, [], [], none⟩
    | some doc =>
      match TargetArch.fromStr archTok with
      | none => ⟨Outcome.err CompilationError.ArchParse, [], [], none⟩
      | some arch => compileBpfCore B io' doc arch basic iter

/-- The context entry a rule contributes when its syscall resolves:
unconditional when basic is set or args is absent, the conjunctive array
entry when args is present. -/
def entryOf (B : Backend) (basic : Bool) (fact : Action) (r : SyscallRule) : RuleEntry :=
  let sys := (B.resolve r.syscall).getD 0
  if basic then RuleEntry.uncond fact sys
  else
    match r.args with
    | some cmps => RuleEntry.arr fact sys cmps
    | none => RuleEntry.uncond fact sys

/-- The entries the context of a group holds after all its rules were added. -/
def groupEntries (B : Backend) (basic : Bool) (f : Filter) : List RuleEntry :=
  f.filter.map (entryOf B basic f.filter_action)

/-- The program the backend exports for the finished context of a group. -/
def groupExport (B : Backend) (arch : TargetArch) (basic : Bool) (f : Filter) : List Nat :=
  B.exportProg f.default_action arch (groupEntries B basic f)

/-- The per-group exported programs of a document, in document order. -/
def exportsOf (B : Backend) (arch : TargetArch) (basic : Bool)
    (doc : List (String × Filter)) : List (List Nat) :=
  doc.map (fun nf => groupExport B arch basic nf.2)

/-- The stored-program sequence determined by the shared memfd: starting
from content c, each export p overwrites the front of the content and
leaves the rest, and the whole resulting content is what is read back
and stored for that group. -/
def storedSeq (c : List Nat) : List (List Nat) → List (List Nat)
  | [] => []
  | p :: ps =>
    let c2 := p ++ c.drop p.length
    c2 :: storedSeq c2 ps

/-- Largest program length in a list of programs. -/
def maxLen (l : List (List Nat)) : Nat :=
  l.foldr (fun p m => max p.length m) 0

/-- All operator tokens of a raw condition list are in the closed
enumeration. -/
def condsTokensOk (cs : List RawCond) : Bool :=
  cs.all (fun c => (opOfToken c.op).isSome)

/-- All operator tokens of a raw rule are in the closed enumeration. -/
def ruleTokensOk (r : RawRule) : Bool :=
  match r.args with
  | none => true
  | some cs => condsTokensOk cs

/-- All action and operator tokens of a raw filter group are in the
closed enumerations. -/
def filterTokensOk (f : RawFilter) : Bool :=
  (actionOfToken f.default_action).isSome &&
    ((actionOfToken f.filter_action).isSome && f.filter.all ruleTokensOk)

/-- All action and operator tokens of a raw document are in the closed
enumerations. -/
def tokensOk (raw : RawDocument) : Bool :=
  raw.all (fun nf => filterTokensOk nf.2)

/-- Every syscall name referenced by a raw document resolves. -/
def allResolveRaw (B : Backend) (raw : RawDocument) : Bool :=
  raw.all (fun nf => nf.2.filter.all (fun r => (B.resolve r.syscall).isSome))

/-- Every syscall name referenced by a parsed document resolves. -/
def allResolveDoc (B : Backend) (doc : List (String × Filter)) : Bool :=
  doc.all (fun nf => nf.2.filter.all (fun r => (B.resolve r.syscall).isSome))

/-- The backend succeeds on every context creation, architecture
registration, rule addition and export. -/
def GoodBackend (B : Backend) : Prop :=
  (∀ g, B.initOk g = true) ∧ (∀ g, B.archAddRet g = 0) ∧
    (∀ g i, B.ruleAddRet g i = 0) ∧ (∀ g, B.exportRet g = 0)

/-- Every OS-level call of the run succeeds. -/
def GoodSys (io' : SysFlags) : Prop :=
  io'.memfdCreateOk = true ∧ (∀ g, io'.rewind1Ok g = true) ∧
    (∀ g, io'.metadataOk g = true) ∧ (∀ g, io'.readOk g = true) ∧
    (∀ g, io'.rewind2Ok g = true) ∧ io'.outputCreateOk = true ∧
    io'.serializeOk = true

/-- A rule with its args field removed. -/
def stripRule (r : SyscallRule) : SyscallRule := ⟨r.syscall, none⟩

/-- A filter group with every args field removed. -/
def stripFilter (f : Filter) : Filter :=
  ⟨f.default_action, f.filter_action, f.filter.map stripRule⟩

/-- A document with every args field removed. -/
def stripDoc (doc : List (String × Filter)) : List (String × Filter) :=
  doc.map (fun nf => (nf.1, stripFilter nf.2))

/-- A concrete backend for closed runs: everything succeeds, every
syscall resolves to 1, a context with rules exports the two words 1, 2
and a context without rules exports the single word 7. -/
def exB : Backend where
  initOk := fun _ => true
  archAddRet := fun _ => 0
  resolve := fun _ => some 1
  ruleAddRet := fun _ _ => 0
  exportRet := fun _ => 0
  exportProg := fun _ _ entries => if entries.isEmpty then [7] else [1, 2]

/-- A concrete backend on which no syscall name resolves. -/
def exBadB : Backend where
  initOk := fun _ => true
  archAddRet := fun _ => 0
  resolve := fun _ => none
  ruleAddRet := fun _ _ => 0
  exportRet := fun _ => 0
  exportProg := fun _ _ _ => [7]

/-- Concrete OS flags: everything succeeds. -/
def allGoodSys : SysFlags where
  memfdCreateOk := true
  rewind1Ok := fun _ => true
  metadataOk := fun _ => true
  readOk := fun _ => true
  rewind2Ok := fun _ => true
  outputCreateOk := true
  serializeOk := true

/-- Concrete OS flags: everything succeeds except every metadata query. -/
def badMetaSys : SysFlags where
  memfdCreateOk := true
  rewind1Ok := fun _ => true
  metadataOk := fun _ => false
  readOk := fun _ => true
  rewind2Ok := fun _ => true
  outputCreateOk := true
  serializeOk := true

/-- A concrete two-group document: group a has one unconditional rule,
group b has no rules. Under exB, group a exports the words 1, 2 and
group b exports the single word 7. -/
def exDoc : List (String × Filter) :=
  [("a", ⟨Action.killProcess, Action.allow, [⟨"read", none⟩]⟩),
   ("b", ⟨Action.killProcess, Action.allow, []⟩)]

/-- A concrete raw document with valid tokens and one conditional rule. -/
def exRaw : RawDocument :=
  [("g", ⟨"kill-process", "allow",
    [⟨"read", some [⟨0, "equal", 5, none⟩]⟩]⟩)]

lemma maxLen_cons (p : List Nat) (ps : List (List Nat)) :
    maxLen (p :: ps) = max p.length (maxLen ps) := rfl

lemma getD_length_le_maxLen_take :
    ∀ (ps : List (List Nat)) (i j : Nat), i ≤ j → i < ps.length →
      (ps.getD i []).length ≤ maxLen (ps.take (j + 1)) := by
  intro ps
  induction ps with
  | nil => intro i j _ hi; simp at hi
  | cons p ps ih =>
    intro i j hij hi
    cases i with
    | zero => simp [maxLen_cons]
    | succ i =>
      cases j with
      | zero => omega
      | succ j =>
        have := ih i j (by omega) (by simpa using hi)
        simp only [List.take_succ_cons, List.getD_cons_succ, maxLen_cons]
        omega

lemma maxLen_take_le_iff :
    ∀ (ps : List (List Nat)) (j n : Nat), j ≤ ps.length →
      (maxLen (ps.take j) ≤ n ↔ ∀ i, i < j → (ps.getD i []).length ≤ n) := by
  intro ps
  induction ps with
  | nil =>
    intro j n hj
    have hj0 : j = 0 := Nat.le_zero.mp (by simpa using hj)
    subst hj0
    simp [maxLen]
  | cons p ps ih =>
    intro j n hj
    cases j with
    | zero => simp [maxLen]
    | succ j =>
      have hj' : j ≤ ps.length := by simpa using hj
      rw [List.take_succ_cons, maxLen_cons]
      constructor
      · intro h
        have hp : p.length ≤ n := le_trans (le_max_left _ _) h
        have hm : maxLen (ps.take j) ≤ n := le_trans (le_max_right _ _) h
        intro i hi
        cases i with
        | zero => simpa using hp
        | succ i => simpa using (ih j n hj').mp hm i (by omega)
      · intro h
        have hp : p.length ≤ n := by simpa using h 0 (by omega)
        have hm : maxLen (ps.take j) ≤ n :=
          (ih j n hj').mpr (fun i hi => by simpa using h (i + 1) (by omega))
        exact max_le hp hm

lemma storedSeq_length (c : List Nat) (ps : List (List Nat)) :
    (storedSeq c ps).length = ps.length := by
  induction ps generalizing c with
  | nil => rfl
  | cons p ps ih => simp [storedSeq, ih]

lemma storedSeq_getD_length :
    ∀ (ps : List (List Nat)) (c : List Nat) (j : Nat), j < ps.length →
      ((storedSeq c ps).getD j []).length = max (maxLen (ps.take (j + 1))) c.length := by
  intro ps
  induction ps with
  | nil => intro c j hj; simp at hj
  | cons p ps ih =>
    intro c j hj
    cases j with
    | zero =>
      simp [storedSeq, maxLen_cons, maxLen]
      omega
    | succ j =>
      have hj' : j < ps.length := by simpa using hj
      simp only [storedSeq, List.getD_cons_succ, List.take_succ_cons, maxLen_cons]
      rw [ih (p ++ List.drop p.length c) j hj']
      simp only [List.length_append, List.length_drop]
      omega

lemma storedSeq_getD_take :
    ∀ (ps : List (List Nat)) (c : List Nat) (j : Nat), j < ps.length →
      ((storedSeq c ps).getD j []).take ((ps.getD j []).length) = ps.getD j [] := by
  intro ps
  induction ps with
  | nil => intro c j hj; simp at hj
  | cons p ps ih =>
    intro c j hj
    cases j with
    | zero =>
      simp only [storedSeq, List.getD_cons_zero]
      rw [List.take_append_of_le_length (by simp)]
      exact List.take_length p
    | succ j =>
      have hj' : j < ps.length := by simpa using hj
      simpa [storedSeq] using ih _ j hj'

lemma processRules_ok (B : Backend) (basic : Bool) (g : Nat) (fact : Action)
    (hret : ∀ i, B.ruleAddRet g i = 0) :
    ∀ (rs : List SyscallRule) (i : Nat), (∀ r ∈ rs, (B.resolve r.syscall).isSome) →
      (processRules B basic g fact rs i).2 = Except.ok (rs.map (entryOf B basic fact)) := by
  intro rs
  induction rs with
  | nil => intro i _; rfl
  | cons r rs ih =>
    intro i hres
    obtain ⟨sys, hsys⟩ := Option.isSome_iff_exists.mp (hres r (by simp))
    have htl : ∀ r' ∈ rs, (B.resolve r'.syscall).isSome :=
      fun r' hr2 => hres r' (by simp [hr2])
    have hrec := ih (i + 1) htl
    cases basic <;> rcases hargs : r.args with _ | cmps <;>
      simp [processRules, hsys, hret i, hargs, hrec, entryOf, Except.map]

lemma processRules_err (B : Backend) (basic : Bool) (g : Nat) (fact : Action)
    (hret : ∀ i, B.ruleAddRet g i = 0) :
    ∀ (rs : List SyscallRule) (i : Nat), (∃ r ∈ rs, B.resolve r.syscall = none) →
      (processRules B basic g fact rs i).2 =
        Except.error CompilationError.LibSeccompResolveSyscall := by
  intro rs
  induction rs with
  | nil => intro i h; simp at h
  | cons r rs ih =>
    intro i hbad
    cases hsys : B.resolve r.syscall with
    | none => simp [processRules, hsys]
    | some sys =>
      have hnew : ∃ r' ∈ rs, B.resolve r'.syscall = none := by
        rcases hbad with ⟨r', hmem, hn⟩
        rcases List.mem_cons.mp hmem with heq | hmem2
        · subst heq; simp [hsys] at hn
        · exact ⟨r', hmem2, hn⟩
      have hrec := ih (i + 1) hnew
      cases basic <;> rcases hargs : r.args with _ | cmps <;>
        simp [processRules, hsys, hret i, hargs, hrec, Except.map]

lemma processRules_err_kinds (B : Backend) (basic : Bool) (g : Nat) (fact : Action) :
    ∀ (rs : List SyscallRule) (i : Nat) (e : CompilationError),
      (processRules B basic g fact rs i).2 = Except.error e →
      e = CompilationError.LibSeccompResolveSyscall ∨
        e = CompilationError.LibSeccompAddRule := by
  intro rs
  induction rs with
  | nil => intro i e h; simp [processRules] at h
  | cons r rs ih =>
    intro i e h
    cases hsys : B.resolve r.syscall with
    | none =>
      simp [processRules, hsys] at h
      exact Or.inl h.symm
    | some sys =>
      by_cases hr : B.ruleAddRet g i = 0
      · rcases hrec : (processRules B basic g fact rs (i + 1)).2 with e' | es
        · cases basic <;> rcases hargs : r.args with _ | cmps <;>
            simp [processRules, hsys, hr, hargs, hrec, Except.map] at h <;>
            exact h ▸ ih (i + 1) e' hrec
        · cases basic <;> rcases hargs : r.args with _ | cmps <;>
            simp [processRules, hsys, hr, hargs, hrec, Except.map] at h
      · cases basic <;> rcases hargs : r.args with _ | cmps <;>
          simp [processRules, hsys, hr, hargs] at h <;>
          exact Or.inr h.symm

lemma processRules_no_outputCreate (B : Backend) (basic : Bool) (g : Nat) (fact : Action) :
    ∀ (rs : List SyscallRule) (i : Nat),
      Event.outputCreate ∉ (processRules B basic g fact rs i).1 := by
  intro rs
  induction rs with
  | nil => intro i; simp [processRules]
  | cons r rs ih =>
    intro i
    cases hsys : B.resolve r.syscall with
    | none => simp [processRules, hsys]
    | some sys =>
      by_cases hr : B.ruleAddRet g i = 0
      · cases basic <;> rcases hargs : r.args with _ | cmps <;>
          simp [processRules, hsys, hr, hargs, ih (i + 1)]
      · cases basic <;> rcases hargs : r.args with _ | cmps <;>
          simp [processRules, hsys, hr, hargs]

lemma processGroup_ok (B : Backend) (io' : SysFlags) (arch : TargetArch) (basic : Bool)
    (g : Nat) (f : Filter) (c : List Nat)
    (hinit : B.initOk g = true) (harch : B.archAddRet g = 0)
    (hret : ∀ i, B.ruleAddRet g i = 0) (hexp : B.exportRet g = 0)
    (hr1 : io'.rewind1Ok g = true) (hmeta : io'.metadataOk g = true)
    (hread : io'.readOk g = true) (hr2 : io'.rewind2Ok g = true)
    (hres : ∀ r ∈ f.filter, (B.resolve r.syscall).isSome) :
    processGroup B io' arch basic g f (c, 0) =
      ([Event.initCtx f.default_action, Event.archAdd arch] ++
        (processRules B basic g f.filter_action f.filter 0).1 ++ [Event.exportBpf g],
       StepResult.ok
         (groupExport B arch basic f ++ c.drop (groupExport B arch basic f).length,
          (groupExport B arch basic f ++ c.drop (groupExport B arch basic f).length, 0))) := by
  have hpr := processRules_ok B basic g f.filter_action hret f.filter 0 hres
  rcases hpre : processRules B basic g f.filter_action f.filter 0 with ⟨revs, res⟩
  rw [hpre] at hpr
  simp only at hpr
  subst hpr
  unfold processGroup
  rw [hpre]
  simp [hinit, archAddCheck, harch, hexp, hr1, hmeta, hread, hr2, writeAt,
    groupExport, groupEntries]

lemma processGroup_resolve_err (B : Backend) (io' : SysFlags) (arch : TargetArch)
    (basic : Bool) (g : Nat) (f : Filter) (buf : List Nat × Nat)
    (hinit : B.initOk g = true) (harch : B.archAddRet g = 0)
    (hret : ∀ i, B.ruleAddRet g i = 0)
    (hbad : ∃ r ∈ f.filter, B.resolve r.syscall = none) :
    (processGroup B io' arch basic g f buf).2 =
      StepResult.err CompilationError.LibSeccompResolveSyscall := by
  have hpr := processRules_err B basic g f.filter_action hret f.filter 0 hbad
  rcases hpre : processRules B basic g f.filter_action f.filter 0 with ⟨revs, res⟩
  rw [hpre] at hpr
  simp only at hpr
  subst hpr
  unfold processGroup
  rw [hpre]
  simp [hinit, archAddCheck, harch]

lemma processGroup_no_outputCreate (B : Backend) (io' : SysFlags) (arch : TargetArch)
    (basic : Bool) (g : Nat) (f : Filter) (buf : List Nat × Nat) :
    Event.outputCreate ∉ (processGroup B io' arch basic g f buf).1 := by
  unfold processGroup
  rcases hpre : processRules B basic g f.filter_action f.filter 0 with ⟨revs, res⟩
  have hrevs : Event.outputCreate ∉ revs := by
    have h := processRules_no_outputCreate B basic g f.filter_action f.filter 0
    rw [hpre] at h
    exact h
  by_cases h1 : B.initOk g = true
  · cases hac : archAddCheck (B.archAddRet g) with
    | some e => simp [h1, hac]
    | none =>
      cases res with
      | error e => simp [h1, hac, hrevs]
      | ok entries =>
        by_cases hex : B.exportRet g = 0 <;>
          by_cases hw1 : io'.rewind1Ok g = true <;>
          by_cases hm : io'.metadataOk g = true <;>
          by_cases hrd : io'.readOk g = true <;>
          by_cases hw2 : io'.rewind2Ok g = true <;>
          simp [h1, hac, hex, hw1, hm, hrd, hw2, hrevs]
  · simp [h1]

lemma processGroup_ne_panicked (B : Backend) (io' : SysFlags) (arch : TargetArch)
    (basic : Bool) (g : Nat) (f : Filter) (buf : List Nat × Nat)
    (hm : io'.metadataOk g = true) :
    (processGroup B io' arch basic g f buf).2 ≠ StepResult.panicked := by
  unfold processGroup
  rcases hpre : processRules B basic g f.filter_action f.filter 0 with ⟨revs, res⟩
  by_cases h1 : B.initOk g = true
  · cases hac : archAddCheck (B.archAddRet g) with
    | some e => simp [h1, hac]
    | none =>
      cases res with
      | error e => simp [h1, hac]
      | ok entries =>
        by_cases hex : B.exportRet g = 0 <;>
          by_cases hw1 : io'.rewind1Ok g = true <;>
          by_cases hrd : io'.readOk g = true <;>
          by_cases hw2 : io'.rewind2Ok g = true <;>
          simp [h1, hac, hex, hw1, hm, hrd, hw2]
  · simp [h1]

lemma processGroup_panics (B : Backend) (io' : SysFlags) (arch : TargetArch)
    (basic : Bool) (g : Nat) (f : Filter) (buf : List Nat × Nat)
    (hinit : B.initOk g = true) (harch : B.archAddRet g = 0)
    (hret : ∀ i, B.ruleAddRet g i = 0) (hexp : B.exportRet g = 0)
    (hr1 : io'.rewind1Ok g = true) (hm : io'.metadataOk g = false)
    (hres : ∀ r ∈ f.filter, (B.resolve r.syscall).isSome) :
    (processGroup B io' arch basic g f buf).2 = StepResult.panicked := by
  have hpr := processRules_ok B basic g f.filter_action hret f.filter 0 hres
  rcases hpre : processRules B basic g f.filter_action f.filter 0 with ⟨revs, res⟩
  rw [hpre] at hpr
  simp only at hpr
  subst hpr
  unfold processGroup
  rw [hpre]
  simp [hinit, archAddCheck, harch, hexp, hr1, hm]

lemma processGroup_arch_err_iff (B : Backend) (io' : SysFlags) (arch : TargetArch)
    (basic : Bool) (g : Nat) (f : Filter) (buf : List Nat × Nat)
    (hinit : B.initOk g = true) :
    ((processGroup B io' arch basic g f buf).2 =
        StepResult.err CompilationError.LibSeccompAddArch)
      ↔ ¬ (B.archAddRet g = 0 ∨ B.archAddRet g = MINUS_EEXIST) := by
  unfold processGroup
  rcases hpre : processRules B basic g f.filter_action f.filter 0 with ⟨revs, res⟩
  by_cases hor : B.archAddRet g = 0 ∨ B.archAddRet g = MINUS_EEXIST
  · have hac : archAddCheck (B.archAddRet g) = none := by
      rcases hor with h | h <;> simp [archAddCheck, h]
    constructor
    · intro h
      exfalso
      cases res with
      | error e =>
        have hk := processRules_err_kinds B basic g f.filter_action f.filter 0 e
          (by rw [hpre])
        simp [hinit, hac] at h
        rcases hk with hk | hk <;> simp [hk] at h
      | ok entries =>
        by_cases hex : B.exportRet g = 0 <;>
          by_cases hw1 : io'.rewind1Ok g = true <;>
          by_cases hm : io'.metadataOk g = true <;>
          by_cases hrd : io'.readOk g = true <;>
          by_cases hw2 : io'.rewind2Ok g = true <;>
          simp [hinit, hac, hex, hw1, hm, hrd, hw2] at h
    · intro h
      exact absurd hor h
  · have hac : archAddCheck (B.archAddRet g) =
        some CompilationError.LibSeccompAddArch := by
      push_neg at hor
      simp [archAddCheck, hor.1, hor.2]
    simp [hinit, hac, hor]

lemma exportsOf_cons (B : Backend) (arch : TargetArch) (basic : Bool) (name : String)
    (f : Filter) (rest : List (String × Filter)) :
    exportsOf B arch basic ((name, f) :: rest) =
      groupExport B arch basic f :: exportsOf B arch basic rest := rfl

lemma storedSeq_cons (c p : List Nat) (ps : List (List Nat)) :
    storedSeq c (p :: ps) =
      (p ++ c.drop p.length) :: storedSeq (p ++ c.drop p.length) ps := rfl

lemma compileGroups_cons_ok (B : Backend) (io' : SysFlags) (arch : TargetArch)
    (basic : Bool) (name : String) (f : Filter) (rest : List (String × Filter))
    (g : Nat) (buf : List Nat × Nat) (evs : List Event) (bpf : List Nat)
    (buf2 : List Nat × Nat)
    (h : processGroup B io' arch basic g f buf = (evs, StepResult.ok (bpf, buf2))) :
    compileGroups B io' arch basic ((name, f) :: rest) g buf =
      ⟨evs ++ (compileGroups B io' arch basic rest (g + 1) buf2).events,
       (name, bpf) :: (compileGroups B io' arch basic rest (g + 1) buf2).artifact,
       (compileGroups B io' arch basic rest (g + 1) buf2).status⟩ := by
  simp [compileGroups, h]

lemma compileGroups_ok (B : Backend) (io' : SysFlags) (arch : TargetArch) (basic : Bool)
    (hB : GoodBackend B) (hio : GoodSys io') :
    ∀ (doc : List (String × Filter)) (g : Nat) (c : List Nat),
      allResolveDoc B doc = true →
      (compileGroups B io' arch basic doc g (c, 0)).status = Outcome.ok ∧
      (compileGroups B io' arch basic doc g (c, 0)).artifact.map Prod.snd =
        storedSeq c (exportsOf B arch basic doc) ∧
      (compileGroups B io' arch basic doc g (c, 0)).artifact.map Prod.fst =
        doc.map Prod.fst := by
  obtain ⟨hinit, harch, hret, hexp⟩ := hB
  obtain ⟨hmem, hr1, hmeta, hread, hr2, hoc, hser⟩ := hio
  intro doc
  induction doc with
  | nil => intro g c _; exact ⟨rfl, rfl, rfl⟩
  | cons nf rest ih =>
    intro g c hres
    obtain ⟨name, f⟩ := nf
    simp only [allResolveDoc, List.all_cons, Bool.and_eq_true] at hres
    have hresf : ∀ r ∈ f.filter, (B.resolve r.syscall).isSome := by
      intro r hr
      exact List.all_eq_true.mp hres.1 r hr
    have hrest : allResolveDoc B rest = true := hres.2
    have hpg := processGroup_ok B io' arch basic g f c (hinit g) (harch g) (hret g)
      (hexp g) (hr1 g) (hmeta g) (hread g) (hr2 g) hresf
    have ihh := ih (g + 1)
      (groupExport B arch basic f ++ c.drop (groupExport B arch basic f).length) hrest
    rw [compileGroups_cons_ok B io' arch basic name f rest g (c, 0) _ _ _ hpg]
    refine ⟨ihh.1, ?_, ?_⟩
    · rw [exportsOf_cons, storedSeq_cons, List.map_cons, ihh.2.1]
    · rw [List.map_cons, List.map_cons, ihh.2.2]

lemma compileGroups_resolve_err (B : Backend) (io' : SysFlags) (arch : TargetArch)
    (basic : Bool) (hB : GoodBackend B) (hio : GoodSys io') :
    ∀ (doc : List (String × Filter)) (g : Nat) (c : List Nat),
      allResolveDoc B doc = false →
      (compileGroups B io' arch basic doc g (c, 0)).status =
        Outcome.err CompilationError.LibSeccompResolveSyscall := by
  obtain ⟨hinit, harch, hret, hexp⟩ := hB
  obtain ⟨hmem, hr1, hmeta, hread, hr2, hoc, hser⟩ := hio
  intro doc
  induction doc with
  | nil => intro g c h; simp [allResolveDoc] at h
  | cons nf rest ih =>
    intro g c hres
    obtain ⟨name, f⟩ := nf
    simp only [allResolveDoc, List.all_cons] at hres
    by_cases hf : f.filter.all (fun r => (B.resolve r.syscall).isSome) = true
    · have hresf : ∀ r ∈ f.filter, (B.resolve r.syscall).isSome := by
        intro r hr
        exact List.all_eq_true.mp hf r hr
      have hrest : allResolveDoc B rest = false := by
        by_contra hrt
        rw [Bool.not_eq_false] at hrt
        simp only [allResolveDoc] at hrt
        rw [hf, hrt] at hres
        simp at hres
      have hpg := processGroup_ok B io' arch basic g f c (hinit g) (harch g) (hret g)
        (hexp g) (hr1 g) (hmeta g) (hread g) (hr2 g) hresf
      rw [compileGroups_cons_ok B io' arch basic name f rest g (c, 0) _ _ _ hpg]
      exact ih (g + 1) _ hrest
    · have hbad : ∃ r ∈ f.filter, B.resolve r.syscall = none := by
        rcases List.all_eq_false.mp (Bool.eq_false_iff.mpr hf) with ⟨r, hr, hn⟩
        exact ⟨r, hr, by simpa using hn⟩
      have hpe := processGroup_resolve_err B io' arch basic g f (c, 0) (hinit g)
        (harch g) (hret g) hbad
      rcases hpq : processGroup B io' arch basic g f (c, 0) with ⟨evs, res⟩
      rw [hpq] at hpe
      simp only at hpe
      subst hpe
      simp [compileGroups, hpq]

lemma compileGroups_ne_panicked (B : Backend) (io' : SysFlags) (arch : TargetArch)
    (basic : Bool) (hm : ∀ g, io'.metadataOk g = true) :
    ∀ (doc : List (String × Filter)) (g : Nat) (buf : List Nat × Nat),
      (compileGroups B io' arch basic doc g buf).status ≠ Outcome.panicked := by
  intro doc
  induction doc with
  | nil => intro g buf; simp [compileGroups]
  | cons nf rest ih =>
    intro g buf
    obtain ⟨name, f⟩ := nf
    rcases hpq : processGroup B io' arch basic g f buf with ⟨evs, res⟩
    have hnp := processGroup_ne_panicked B io' arch basic g f buf (hm g)
    rw [hpq] at hnp
    simp only at hnp
    cases res with
    | ok a =>
      obtain ⟨bpf, buf2⟩ := a
      simp only [compileGroups]
      rw [hpq]
      exact ih (g + 1) buf2
    | err e => simp [compileGroups, hpq]
    | panicked => exact absurd rfl hnp

lemma compileGroups_no_outputCreate (B : Backend) (io' : SysFlags) (arch : TargetArch)
    (basic : Bool) :
    ∀ (doc : List (String × Filter)) (g : Nat) (buf : List Nat × Nat),
      Event.outputCreate ∉ (compileGroups B io' arch basic doc g buf).events := by
  intro doc
  induction doc with
  | nil => intro g buf; simp [compileGroups]
  | cons nf rest ih =>
    intro g buf
    obtain ⟨name, f⟩ := nf
    rcases hpq : processGroup B io' arch basic g f buf with ⟨evs, res⟩
    have hevs : Event.outputCreate ∉ evs := by
      have h := processGroup_no_outputCreate B io' arch basic g f buf
      rw [hpq] at h
      exact h
    cases res with
    | ok a =>
      obtain ⟨bpf, buf2⟩ := a
      simp only [compileGroups]
      rw [hpq]
      simp [List.mem_append, hevs, ih (g + 1) buf2]
    | err e => simp [compileGroups, hpq, hevs]
    | panicked => simp [compileGroups, hpq, hevs]

lemma compileGroups_panics (B : Backend) (io' : SysFlags) (arch : TargetArch)
    (basic : Bool) (hB : GoodBackend B)
    (hr1 : ∀ g, io'.rewind1Ok g = true) (hm : ∀ g, io'.metadataOk g = false) :
    ∀ (doc : List (String × Filter)) (g : Nat) (buf : List Nat × Nat), doc ≠ [] →
      allResolveDoc B doc = true →
      (compileGroups B io' arch basic doc g buf).status = Outcome.panicked := by
  obtain ⟨hinit, harch, hret, hexp⟩ := hB
  intro doc g buf hne hres
  cases doc with
  | nil => exact absurd rfl hne
  | cons nf rest =>
    obtain ⟨name, f⟩ := nf
    simp only [allResolveDoc, List.all_cons, Bool.and_eq_true] at hres
    have hresf : ∀ r ∈ f.filter, (B.resolve r.syscall).isSome := by
      intro r hr
      exact List.all_eq_true.mp hres.1 r hr
    have hpp := processGroup_panics B io' arch basic g f buf (hinit g) (harch g)
      (hret g) (hexp g) (hr1 g) (hm g) hresf
    rcases hpq : processGroup B io' arch basic g f buf with ⟨evs, res⟩
    rw [hpq] at hpp
    simp only at hpp
    subst hpp
    simp [compileGroups, hpq]

lemma parseConds_isSome (cs : List RawCond) :
    (parseConds cs).isSome = condsTokensOk cs := by
  induction cs with
  | nil => rfl
  | cons c cs ih =>
    simp only [condsTokensOk, List.all_cons] at ih ⊢
    cases hop : opOfToken c.op with
    | none => simp [parseConds, parseCond, hop]
    | some o =>
      cases hcs : parseConds cs with
      | none =>
        rw [hcs] at ih
        simp [parseConds, parseCond, hop, hcs, ← ih]
      | some as2 =>
        rw [hcs] at ih
        simp [parseConds, parseCond, hop, hcs, ← ih]

lemma parseRule_isSome (r : RawRule) : (parseRule r).isSome = ruleTokensOk r := by
  cases hargs : r.args with
  | none => simp [parseRule, hargs, ruleTokensOk]
  | some cs =>
    cases hcs : parseConds cs with
    | none =>
      have h := parseConds_isSome cs
      rw [hcs] at h
      simp [parseRule, hargs, hcs, ruleTokensOk, ← h]
    | some as2 =>
      have h := parseConds_isSome cs
      rw [hcs] at h
      simp [parseRule, hargs, hcs, ruleTokensOk, ← h]

lemma parseRules_isSome (rs : List RawRule) :
    (parseRules rs).isSome = rs.all ruleTokensOk := by
  induction rs with
  | nil => rfl
  | cons r rs ih =>
    cases hr : parseRule r with
    | none =>
      have h := parseRule_isSome r
      rw [hr] at h
      simp [parseRules, hr, List.all_cons, ← h]
    | some a =>
      have h := parseRule_isSome r
      rw [hr] at h
      cases hrs : parseRules rs with
      | none =>
        rw [hrs] at ih
        simp [parseRules, hr, hrs, List.all_cons, ← h, ← ih]
      | some as2 =>
        rw [hrs] at ih
        simp [parseRules, hr, hrs, List.all_cons, ← h, ← ih]

lemma parseFilter_isSome (f : RawFilter) :
    (parseFilter f).isSome = filterTokensOk f := by
  unfold parseFilter filterTokensOk
  cases hd : actionOfToken f.default_action with
  | none => simp [hd]
  | some d =>
    cases ha : actionOfToken f.filter_action with
    | none => simp [hd, ha]
    | some a =>
      cases hrs : parseRules f.filter with
      | none =>
        have h := parseRules_isSome f.filter
        rw [hrs] at h
        simp [hd, ha, hrs, ← h]
      | some rs =>
        have h := parseRules_isSome f.filter
        rw [hrs] at h
        simp [hd, ha, hrs, ← h]

lemma parseDoc_isSome (raw : RawDocument) : (parseDoc raw).isSome = tokensOk raw := by
  induction raw with
  | nil => rfl
  | cons nf rest ih =>
    obtain ⟨n, f⟩ := nf
    cases hf : parseFilter f with
    | none =>
      have h := parseFilter_isSome f
      rw [hf] at h
      simp [parseDoc, hf, tokensOk, List.all_cons, ← h]
    | some pf =>
      have h := parseFilter_isSome f
      rw [hf] at h
      cases hrest : parseDoc rest with
      | none =>
        rw [hrest] at ih
        simp only [tokensOk] at ih
        simp [parseDoc, hf, hrest, tokensOk, List.all_cons, ← h, ← ih]
      | some prest =>
        rw [hrest] at ih
        simp only [tokensOk] at ih
        simp [parseDoc, hf, hrest, tokensOk, List.all_cons, ← h, ← ih]

lemma parseRule_syscall (r : RawRule) (a : SyscallRule) (h : parseRule r = some a) :
    a.syscall = r.syscall := by
  cases hargs : r.args with
  | none =>
    simp only [parseRule, hargs] at h
    cases h
    rfl
  | some cs =>
    simp only [parseRule, hargs] at h
    cases hcs : parseConds cs with
    | none => simp [hcs] at h
    | some as2 =>
      simp only [hcs] at h
      cases h
      rfl

lemma parseRules_syscalls :
    ∀ (rrs : List RawRule) (rs : List SyscallRule), parseRules rrs = some rs →
      rs.map SyscallRule.syscall = rrs.map RawRule.syscall := by
  intro rrs
  induction rrs with
  | nil => intro rs h; cases h; rfl
  | cons r rest ih =>
    intro rs h
    rw [parseRules] at h
    cases hr : parseRule r with
    | none => rw [hr] at h; cases h
    | some a =>
      cases hrest : parseRules rest with
      | none => rw [hr, hrest] at h; cases h
      | some as2 =>
        rw [hr, hrest] at h
        cases h
        simp [parseRule_syscall r a hr, ih as2 hrest]

lemma all_resolve_of_syscalls (B : Backend) :
    ∀ (rs : List SyscallRule) (rrs : List RawRule),
      rs.map SyscallRule.syscall = rrs.map RawRule.syscall →
      rs.all (fun r => (B.resolve r.syscall).isSome) =
        rrs.all (fun r => (B.resolve r.syscall).isSome) := by
  intro rs
  induction rs with
  | nil =>
    intro rrs h
    cases rrs with
    | nil => rfl
    | cons a b => simp at h
  | cons r rest ih =>
    intro rrs h
    cases rrs with
    | nil => simp at h
    | cons r2 rest2 =>
      simp only [List.map_cons, List.cons.injEq] at h
      simp only [List.all_cons, h.1, ih rest2 h.2]

lemma parseFilter_resolve (B : Backend) (f : RawFilter) (pf : Filter)
    (h : parseFilter f = some pf) :
    pf.filter.all (fun r => (B.resolve r.syscall).isSome) =
      f.filter.all (fun r => (B.resolve r.syscall).isSome) := by
  rw [parseFilter] at h
  cases hd : actionOfToken f.default_action with
  | none => rw [hd] at h; cases h
  | some d =>
    cases ha : actionOfToken f.filter_action with
    | none => rw [hd, ha] at h; cases h
    | some a =>
      cases hrs : parseRules f.filter with
      | none => rw [hd, ha, hrs] at h; cases h
      | some rs =>
        rw [hd, ha, hrs] at h
        cases h
        exact all_resolve_of_syscalls B rs f.filter (parseRules_syscalls f.filter rs hrs)

lemma parseDoc_resolve (B : Backend) :
    ∀ (raw : RawDocument) (doc : List (String × Filter)), parseDoc raw = some doc →
      allResolveDoc B doc = allResolveRaw B raw := by
  intro raw
  induction raw with
  | nil => intro doc h; cases h; rfl
  | cons nf rest ih =>
    intro doc h
    obtain ⟨n, f⟩ := nf
    rw [parseDoc] at h
    cases hf : parseFilter f with
    | none => rw [hf] at h; cases h
    | some pf =>
      cases hrest : parseDoc rest with
      | none => rw [hf, hrest] at h; cases h
      | some prest =>
        rw [hf, hrest] at h
        cases h
        simp only [allResolveDoc, allResolveRaw, List.all_cons]
        rw [parseFilter_resolve B f pf hf]
        have := ih prest hrest
        simp only [allResolveDoc, allResolveRaw] at this
        rw [this]

lemma compileBpfCore_good (B : Backend) (io' : SysFlags) (doc : List (String × Filter))
    (arch : TargetArch) (basic : Bool)
    (iter : List (String × List Nat) → List (String × List Nat))
    (hB : GoodBackend B) (hio : GoodSys io') (hres : allResolveDoc B doc = true) :
    (compileBpfCore B io' doc arch basic iter).outcome = Outcome.ok ∧
    (compileBpfCore B io' doc arch basic iter).artifact.map Prod.snd =
      storedSeq [] (exportsOf B arch basic doc) ∧
    (compileBpfCore B io' doc arch basic iter).artifact.map Prod.fst =
      doc.map Prod.fst := by
  have hcg := compileGroups_ok B io' arch basic hB hio doc 0 [] hres
  obtain ⟨hmem, hr1, hmeta, hread, hr2, hoc, hser⟩ := hio
  refine ⟨?_, ?_, ?_⟩ <;>
    simp [compileBpfCore, hmem, hoc, hser, hcg.1, hcg.2.1, hcg.2.2]

lemma compileBpfCore_resolve_err (B : Backend) (io' : SysFlags)
    (doc : List (String × Filter)) (arch : TargetArch) (basic : Bool)
    (iter : List (String × List Nat) → List (String × List Nat))
    (hB : GoodBackend B) (hio : GoodSys io') (hres : allResolveDoc B doc = false) :
    (compileBpfCore B io' doc arch basic iter).outcome =
      Outcome.err CompilationError.LibSeccompResolveSyscall ∧
    Event.outputCreate ∉ (compileBpfCore B io' doc arch basic iter).events := by
  have hcg := compileGroups_resolve_err B io' arch basic hB hio doc 0 [] hres
  have hnoc := compileGroups_no_outputCreate B io' arch basic doc 0 ([], 0)
  obtain ⟨hmem, hr1, hmeta, hread, hr2, hoc, hser⟩ := hio
  constructor
  · simp [compileBpfCore, hmem, hcg]
  · simp [compileBpfCore, hmem, hcg, hnoc]

lemma getD_map_of_lt {α β : Type} (f : α → β) :
    ∀ (l : List α) (k : Nat) (d : α) (d' : β), k < l.length →
      (l.map f).getD k d' = f (l.getD k d) := by
  intro l
  induction l with
  | nil => intro k d d' h; simp at h
  | cons x xs ih =>
    intro k d d' h
    cases k with
    | zero => rfl
    | succ k =>
      simp only [List.map_cons, List.getD_cons_succ]
      exact ih k d d' (by simpa using h)

/-- Recognizes an unconditional seccomp_rule_add call event. -/
def isRuleAdd : Event → Bool
  | Event.ruleAdd _ _ => true
  | _ => false

lemma processRules_strip (B : Backend) (g : Nat) (fact : Action) :
    ∀ (rs : List SyscallRule) (i : Nat),
      processRules B true g fact rs i =
        processRules B false g fact (rs.map stripRule) i := by
  intro rs
  induction rs with
  | nil => intro i; rfl
  | cons r rest ih =>
    intro i
    cases hsys : B.resolve r.syscall with
    | none => simp [processRules, stripRule, hsys]
    | some sys =>
      by_cases hr : B.ruleAddRet g i = 0 <;>
        simp [processRules, stripRule, hsys, hr, ih (i + 1)]

lemma processGroup_strip (B : Backend) (io' : SysFlags) (arch : TargetArch) (g : Nat)
    (f : Filter) (buf : List Nat × Nat) :
    processGroup B io' arch true g f buf =
      processGroup B io' arch false g (stripFilter f) buf := by
  obtain ⟨d, a, rs⟩ := f
  unfold processGroup stripFilter
  dsimp only
  rw [← processRules_strip]

lemma compileGroups_strip (B : Backend) (io' : SysFlags) (arch : TargetArch) :
    ∀ (doc : List (String × Filter)) (g : Nat) (buf : List Nat × Nat),
      compileGroups B io' arch true doc g buf =
        compileGroups B io' arch false (stripDoc doc) g buf := by
  intro doc
  induction doc with
  | nil => intro g buf; rfl
  | cons nf rest ih =>
    intro g buf
    obtain ⟨name, f⟩ := nf
    show compileGroups B io' arch true ((name, f) :: rest) g buf =
      compileGroups B io' arch false ((name, stripFilter f) :: stripDoc rest) g buf
    simp only [compileGroups]
    rw [← processGroup_strip]
    rcases hpq : processGroup B io' arch true g f buf with ⟨evs, res⟩
    cases res with
    | ok p =>
      obtain ⟨bpf, buf2⟩ := p
      simp [ih]
    | err e => simp
    | panicked => simp

/-- C1: the specification states that the program transfer buffer is
created fresh for each filter group and never reused across filter
groups. The code does the opposite: compile_bpf creates one memfd before
the group loop (lib.rs line 70) and reuses it for every group. In this
concrete two-group run exactly one memfd-create call serves both export
calls, and the reuse is observable in the stored artifact: the second
group exports the single word 7, yet its stored program is the two words
7, 2, whose second word is left over from the exported
program 1, 2 still sitting in the shared buffer. -/
theorem c1_transfer_buffer_reused :
    (compileBpfCore exB allGoodSys exDoc TargetArch.x86_64 false id).events.count
        Event.memfdCreate = 1 ∧
    (compileBpfCore exB allGoodSys exDoc TargetArch.x86_64 false id).events.count
        (Event.exportBpf 0) = 1 ∧
    (compileBpfCore exB allGoodSys exDoc TargetArch.x86_64 false id).events.count
        (Event.exportBpf 1) = 1 ∧
    (compileBpfCore exB allGoodSys exDoc TargetArch.x86_64 false id).artifact =
      [("a", [1, 2]), ("b", [7, 2])] ∧
    groupExport exB TargetArch.x86_64 false
        (⟨Action.killProcess, Action.allow, []⟩ : Filter) = [7] := by
  refine ⟨?_, ?_, ?_, ?_, ?_⟩ <;> decide

/-- C2: the memfd is rewound but never truncated between groups, so the
word count read back for each group equals the largest program exported
so far in the run, and a group whose exported program is strictly
smaller than an earlier one stores its own program followed by leftover
words of the previous buffer content. Stated for every run with a good
backend, good OS calls and fully resolving document: the stored programs
are exactly the storedSeq overwrite sequence, the length of each stored
length is the running maximum of exported lengths, each exported program
is a prefix of its stored program, and whenever a later export is
strictly shorter than an earlier one the stored program is strictly
longer than the export, that is, it carries trailing leftover words. -/
theorem c2_stale_buffer_tail (B : Backend) (io' : SysFlags)
    (doc : List (String × Filter)) (arch : TargetArch) (basic : Bool)
    (iter : List (String × List Nat) → List (String × List Nat))
    (hB : GoodBackend B) (hio : GoodSys io') (hres : allResolveDoc B doc = true) :
    (compileBpfCore B io' doc arch basic iter).artifact.map Prod.snd =
      storedSeq [] (exportsOf B arch basic doc) ∧
    (∀ j, j < doc.length →
      (((compileBpfCore B io' doc arch basic iter).artifact.map Prod.snd).getD j
          []).length =
        maxLen ((exportsOf B arch basic doc).take (j + 1))) ∧
    (∀ j, j < doc.length →
      (((compileBpfCore B io' doc arch basic iter).artifact.map Prod.snd).getD j
          []).take ((exportsOf B arch basic doc).getD j []).length =
        (exportsOf B arch basic doc).getD j []) ∧
    (∀ i j, i < j → j < doc.length →
      ((exportsOf B arch basic doc).getD j []).length <
          ((exportsOf B arch basic doc).getD i []).length →
      ((exportsOf B arch basic doc).getD j []).length <
        (((compileBpfCore B io' doc arch basic iter).artifact.map Prod.snd).getD j
          []).length) := by
  have hgood := compileBpfCore_good B io' doc arch basic iter hB hio hres
  have hps : (exportsOf B arch basic doc).length = doc.length := by
    simp [exportsOf]
  refine ⟨hgood.2.1, ?_, ?_, ?_⟩
  · intro j hj
    rw [hgood.2.1, storedSeq_getD_length (exportsOf B arch basic doc) [] j (by omega)]
    simp
  · intro j hj
    rw [hgood.2.1]
    exact storedSeq_getD_take (exportsOf B arch basic doc) [] j (by omega)
  · intro i j hij hj hlen
    rw [hgood.2.1, storedSeq_getD_length (exportsOf B arch basic doc) [] j (by omega)]
    have hle := getD_length_le_maxLen_take (exportsOf B arch basic doc) i j
      (by omega) (by omega)
    simp only [List.length_nil]
    omega

/-- Witness for C2 at a concrete input: in the two-group run of exDoc
under exB the stored programs are the overwrite sequence, and the stored program of the second group is strictly longer than its own exported program. -/
theorem c2_stale_buffer_tail_witness :
    (compileBpfCore exB allGoodSys exDoc TargetArch.x86_64 false id).artifact.map
        Prod.snd =
      storedSeq [] (exportsOf exB TargetArch.x86_64 false exDoc) ∧
    ((exportsOf exB TargetArch.x86_64 false exDoc).getD 1 []).length <
      (((compileBpfCore exB allGoodSys exDoc TargetArch.x86_64 false id).artifact.map
          Prod.snd).getD 1 []).length := by
  have h := c2_stale_buffer_tail exB allGoodSys exDoc TargetArch.x86_64 false id
    ⟨fun _ => rfl, fun _ => rfl, fun _ _ => rfl, fun _ => rfl⟩
    ⟨rfl, fun _ => rfl, fun _ => rfl, fun _ => rfl, fun _ => rfl, rfl, rfl⟩
    (by decide)
  exact ⟨h.1, h.2.2.2 0 1 (by decide) (by decide) (by decide)⟩

/-- C3 counterexample: the claim says two successful runs over the same
inputs with an identically behaving backend produce byte-identical
serialized artifacts. The output map is a std HashMap whose iteration
order is unspecified and varies between processes, and bincode writes
entries in that order: the very same compilation, serialized once under
one iteration order and once under the reversed order, succeeds both
times, builds the identical name-to-program mapping, and yet produces
different output bytes. -/
theorem c3_counterexample_iteration_order :
    (compileBpfCore exB allGoodSys exDoc TargetArch.x86_64 false id).outcome =
      Outcome.ok ∧
    (compileBpfCore exB allGoodSys exDoc TargetArch.x86_64 false
        List.reverse).outcome = Outcome.ok ∧
    (compileBpfCore exB allGoodSys exDoc TargetArch.x86_64 false id).artifact =
      (compileBpfCore exB allGoodSys exDoc TargetArch.x86_64 false
        List.reverse).artifact ∧
    (compileBpfCore exB allGoodSys exDoc TargetArch.x86_64 false id).output ≠
      (compileBpfCore exB allGoodSys exDoc TargetArch.x86_64 false
        List.reverse).output := by
  refine ⟨rfl, rfl, rfl, ?_⟩
  decide

/-- C3 amended: compilation is a pure function of its inputs up to the
unspecified iteration order of the output HashMap: two runs over the
same inputs with the same backend produce the same outcome, the same
call sequence and the same name-to-program mapping, and byte-identical
serialized artifacts whenever the two runs serialize the map in the same
iteration order. -/
theorem c3_deterministic_up_to_map_order (B : Backend) (io' : SysFlags)
    (doc : List (String × Filter)) (arch : TargetArch) (basic : Bool)
    (iter1 iter2 : List (String × List Nat) → List (String × List Nat)) :
    (compileBpfCore B io' doc arch basic iter1).outcome =
      (compileBpfCore B io' doc arch basic iter2).outcome ∧
    (compileBpfCore B io' doc arch basic iter1).events =
      (compileBpfCore B io' doc arch basic iter2).events ∧
    (compileBpfCore B io' doc arch basic iter1).artifact =
      (compileBpfCore B io' doc arch basic iter2).artifact ∧
    (iter1 = iter2 →
      compileBpfCore B io' doc arch basic iter1 =
        compileBpfCore B io' doc arch basic iter2) := by
  have hsame : ∀ it1 it2 : List (String × List Nat) → List (String × List Nat),
      (compileBpfCore B io' doc arch basic it1).outcome =
        (compileBpfCore B io' doc arch basic it2).outcome ∧
      (compileBpfCore B io' doc arch basic it1).events =
        (compileBpfCore B io' doc arch basic it2).events ∧
      (compileBpfCore B io' doc arch basic it1).artifact =
        (compileBpfCore B io' doc arch basic it2).artifact := by
    intro it1 it2
    by_cases hm : io'.memfdCreateOk = true
    · rcases hst : (compileGroups B io' arch basic doc 0 ([], 0)).status with _ | e | _ <;>
        by_cases hoc : io'.outputCreateOk = true <;>
        by_cases hser : io'.serializeOk = true <;>
        refine ⟨?_, ?_, ?_⟩ <;>
        simp [compileBpfCore, hm, hst, hoc, hser]
    · refine ⟨?_, ?_, ?_⟩ <;> simp [compileBpfCore, hm]
  exact ⟨(hsame iter1 iter2).1, (hsame iter1 iter2).2.1, (hsame iter1 iter2).2.2,
    fun h => by rw [h]⟩

/-- Witness for C3 amended at a concrete input: with the same iteration
order the concrete run serializes identically, and across different
iteration orders the mapping itself is still identical. -/
theorem c3_deterministic_up_to_map_order_witness :
    (compileBpfCore exB allGoodSys exDoc TargetArch.x86_64 false id).output =
      (compileBpfCore exB allGoodSys exDoc TargetArch.x86_64 false id).output ∧
    (compileBpfCore exB allGoodSys exDoc TargetArch.x86_64 false id).artifact =
      (compileBpfCore exB allGoodSys exDoc TargetArch.x86_64 false
        List.reverse).artifact :=
  ⟨congrArg RunResult.output
      ((c3_deterministic_up_to_map_order exB allGoodSys exDoc TargetArch.x86_64 false
        id id).2.2.2 rfl),
   (c3_deterministic_up_to_map_order exB allGoodSys exDoc TargetArch.x86_64 false
     id List.reverse).2.2.1⟩

/-- C4: assuming the backend calls and the buffer and output OS calls
succeed and the architecture token parses, compile succeeds on a
shape-valid document if and only if every action and operator token is
in the closed enumerations and every referenced syscall name resolves;
an unknown token fails the JSON deserialization and yields the
JsonDeserialize error, an unresolvable syscall yields the
LibSeccompResolveSyscall error, and no failure is ever anything but a
typed error value. -/
theorem c4_success_iff (B : Backend) (io' : SysFlags) (raw : RawDocument)
    (archTok : String) (basic : Bool)
    (iter : List (String × List Nat) → List (String × List Nat))
    (hB : GoodBackend B) (hio : GoodSys io')
    (harch : (TargetArch.fromStr archTok).isSome = true) :
    ((compile_bpf B io' (InputSrc.wellFormed raw) archTok basic iter).outcome =
        Outcome.ok ↔ tokensOk raw = true ∧ allResolveRaw B raw = true) ∧
    (tokensOk raw = false →
      (compile_bpf B io' (InputSrc.wellFormed raw) archTok basic iter).outcome =
        Outcome.err CompilationError.JsonDeserialize) ∧
    (tokensOk raw = true → allResolveRaw B raw = false →
      (compile_bpf B io' (InputSrc.wellFormed raw) archTok basic iter).outcome =
        Outcome.err CompilationError.LibSeccompResolveSyscall) ∧
    (compile_bpf B io' (InputSrc.wellFormed raw) archTok basic iter).outcome ≠
      Outcome.panicked := by
  obtain ⟨arch, harch2⟩ := Option.isSome_iff_exists.mp harch
  cases hparse : parseDoc raw with
  | none =>
    have htok : tokensOk raw = false := by
      have h := parseDoc_isSome raw
      rw [hparse] at h
      simpa using h.symm
    refine ⟨?_, ?_, ?_, ?_⟩
    · simp [compile_bpf, hparse, htok]
    · intro _
      simp [compile_bpf, hparse]
    · intro h1
      rw [htok] at h1
      exact Bool.noConfusion h1
    · simp [compile_bpf, hparse]
  | some doc =>
    have htok : tokensOk raw = true := by
      have h := parseDoc_isSome raw
      rw [hparse] at h
      simpa using h.symm
    have hrr := parseDoc_resolve B raw doc hparse
    cases hres : allResolveRaw B raw with
    | true =>
      have hdoc : allResolveDoc B doc = true := by rw [hrr, hres]
      have hcore := compileBpfCore_good B io' doc arch basic iter hB hio hdoc
      refine ⟨?_, ?_, ?_, ?_⟩
      · simp [compile_bpf, hparse, harch2, hcore.1, htok, hres]
      · intro h
        rw [htok] at h
        exact Bool.noConfusion h
      · intro _ h
        exact Bool.noConfusion h
      · simp [compile_bpf, hparse, harch2, hcore.1]
    | false =>
      have hdoc : allResolveDoc B doc = false := by rw [hrr, hres]
      have hcore := compileBpfCore_resolve_err B io' doc arch basic iter hB hio hdoc
      refine ⟨?_, ?_, ?_, ?_⟩
      · simp [compile_bpf, hparse, harch2, hcore.1, hres]
      · intro h
        rw [htok] at h
        exact Bool.noConfusion h
      · intro _ _
        simp [compile_bpf, hparse, harch2, hcore.1]
      · simp [compile_bpf, hparse, harch2, hcore.1]

/-- Witness for C4 at a concrete input: the concrete one-group document
with valid tokens compiles, the iff holds there, and the run does not
panic. -/
theorem c4_success_iff_witness :
    ((compile_bpf exB allGoodSys (InputSrc.wellFormed exRaw) "x86_64" false id).outcome =
        Outcome.ok ↔ tokensOk exRaw = true ∧ allResolveRaw exB exRaw = true) ∧
    (compile_bpf exB allGoodSys (InputSrc.wellFormed exRaw) "x86_64" false id).outcome ≠
      Outcome.panicked := by
  have h := c4_success_iff exB allGoodSys exRaw "x86_64" false id
    ⟨fun _ => rfl, fun _ => rfl, fun _ _ => rfl, fun _ => rfl⟩
    ⟨rfl, fun _ => rfl, fun _ => rfl, fun _ => rfl, fun _ => rfl, rfl, rfl⟩ rfl
  exact ⟨h.1, h.2.2.2⟩

/-- C5: with the legacy flag off, a rule whose args field is present
contributes exactly one backend call for its addition: a single
seccomp_rule_add_array call carrying the whole comparator list as one
array, recorded as one conjunctive context entry, and no unconditional
seccomp_rule_add call at all. -/
theorem c5_args_single_array_call (B : Backend) (g i : Nat) (fact : Action)
    (r : SyscallRule) (rs : List SyscallRule) (cmps : List ArgCmp) (sys : Int)
    (hargs : r.args = some cmps) (hres : B.resolve r.syscall = some sys)
    (hret : B.ruleAddRet g i = 0) :
    processRules B false g fact (r :: rs) i =
      (Event.resolve r.syscall :: Event.ruleAddArray fact sys cmps ::
          (processRules B false g fact rs (i + 1)).1,
        (processRules B false g fact rs (i + 1)).2.map
          (fun es => RuleEntry.arr fact sys cmps :: es)) ∧
    [Event.resolve r.syscall, Event.ruleAddArray fact sys cmps].countP isRuleAdd = 0 := by
  constructor
  · simp [processRules, hres, hargs, hret]
  · rfl

/-- Witness for C5 at a concrete input: a rule with two comparators
contributes one array call carrying both comparators. -/
theorem c5_args_single_array_call_witness :
    processRules exB false 0 Action.allow
        [⟨"read", some [⟨0, CmpOp.eq, 5, none⟩, ⟨1, CmpOp.ne, 6, none⟩]⟩] 0 =
      (Event.resolve "read" :: Event.ruleAddArray Action.allow 1
            [⟨0, CmpOp.eq, 5, none⟩, ⟨1, CmpOp.ne, 6, none⟩] ::
          (processRules exB false 0 Action.allow [] 1).1,
        (processRules exB false 0 Action.allow [] 1).2.map
          (fun es => RuleEntry.arr Action.allow 1
            [⟨0, CmpOp.eq, 5, none⟩, ⟨1, CmpOp.ne, 6, none⟩] :: es)) :=
  (c5_args_single_array_call exB 0 0 Action.allow
    ⟨"read", some [⟨0, CmpOp.eq, 5, none⟩, ⟨1, CmpOp.ne, 6, none⟩]⟩ []
    [⟨0, CmpOp.eq, 5, none⟩, ⟨1, CmpOp.ne, 6, none⟩] 1 rfl rfl rfl).1

/-- C6: compiling any document with the legacy basic flag set produces
exactly the same run, call for call and byte for byte, as compiling the
same document with every args field removed and the flag off: argument
conditions are discarded and each rule becomes one unconditional rule
for its syscall under the group filter action. -/
theorem c6_legacy_equals_stripped (B : Backend) (io' : SysFlags)
    (doc : List (String × Filter)) (arch : TargetArch)
    (iter : List (String × List Nat) → List (String × List Nat)) :
    compileBpfCore B io' doc arch true iter =
      compileBpfCore B io' (stripDoc doc) arch false iter := by
  unfold compileBpfCore
  rw [compileGroups_strip B io' arch doc 0 ([], 0)]

/-- C7: when the backend calls and OS calls otherwise succeed, the
tokens are valid and the architecture parses, a document containing a
syscall name that does not resolve makes compile return the
LibSeccompResolveSyscall error, and the output file is never opened:
no outputCreate call appears in the run. -/
theorem c7_unknown_syscall_aborts (B : Backend) (io' : SysFlags) (raw : RawDocument)
    (archTok : String) (basic : Bool)
    (iter : List (String × List Nat) → List (String × List Nat))
    (hB : GoodBackend B) (hio : GoodSys io') (htok : tokensOk raw = true)
    (harch : (TargetArch.fromStr archTok).isSome = true)
    (hbad : allResolveRaw B raw = false) :
    (compile_bpf B io' (InputSrc.wellFormed raw) archTok basic iter).outcome =
      Outcome.err CompilationError.LibSeccompResolveSyscall ∧
    Event.outputCreate ∉
      (compile_bpf B io' (InputSrc.wellFormed raw) archTok basic iter).events := by
  obtain ⟨arch, harch2⟩ := Option.isSome_iff_exists.mp harch
  have hps : (parseDoc raw).isSome = true := by rw [parseDoc_isSome, htok]
  obtain ⟨doc, hparse⟩ := Option.isSome_iff_exists.mp hps
  have hdoc : allResolveDoc B doc = false := by
    rw [parseDoc_resolve B raw doc hparse, hbad]
  have hcore := compileBpfCore_resolve_err B io' doc arch basic iter hB hio hdoc
  have heq : compile_bpf B io' (InputSrc.wellFormed raw) archTok basic iter =
      compileBpfCore B io' doc arch basic iter := by
    simp [compile_bpf, hparse, harch2]
  rw [heq]
  exact hcore

/-- Witness for C7 at a concrete input: under a backend that resolves no
name, the concrete document aborts with the resolution error and never
opens the output file. -/
theorem c7_unknown_syscall_aborts_witness :
    (compile_bpf exBadB allGoodSys (InputSrc.wellFormed exRaw) "x86_64" false
        id).outcome = Outcome.err CompilationError.LibSeccompResolveSyscall ∧
    Event.outputCreate ∉
      (compile_bpf exBadB allGoodSys (InputSrc.wellFormed exRaw) "x86_64" false
        id).events :=
  c7_unknown_syscall_aborts exBadB allGoodSys exRaw "x86_64" false id
    ⟨fun _ => rfl, fun _ => rfl, fun _ _ => rfl, fun _ => rfl⟩
    ⟨rfl, fun _ => rfl, fun _ => rfl, fun _ => rfl, fun _ => rfl, rfl, rfl⟩
    (by decide) rfl (by decide)

/-- C8 counterexample: the claim says the stored program of an empty filter group is a program expressing only the default action of the group. In this
concrete successful run the second group has no rules and the backend
exports the single word 7 for it, yet the stored program is the two
words 7, 2 — not the exported degenerate program — because the shared
buffer still holds a word of the program of the first group. -/
theorem c8_counterexample_contaminated_empty_group :
    (compileBpfCore exB allGoodSys exDoc TargetArch.x86_64 false id).outcome =
      Outcome.ok ∧
    (exDoc.getD 1 ("", ⟨Action.allow, Action.allow, []⟩)).2.filter = [] ∧
    groupExport exB TargetArch.x86_64 false
        (exDoc.getD 1 ("", ⟨Action.allow, Action.allow, []⟩)).2 = [7] ∧
    (compileBpfCore exB allGoodSys exDoc TargetArch.x86_64 false id).artifact.getD 1
        ("", []) = ("b", [7, 2]) ∧
    ([7, 2] : List Nat) ≠ [7] := by
  refine ⟨?_, ?_, ?_, ?_, ?_⟩ <;> decide

/-- C8 amended: a filter group with an empty rule list is no error: the
run still succeeds, the context is created, the architecture registered
and the program exported for that group, the entry of the group is
present in the output mapping under its name, the degenerate
default-action program is a prefix of the stored program, and the stored
program is non-empty whenever the degenerate export is non-empty.
Moreover the stored program equals the degenerate export if and only if
no earlier group of the run exported a larger program (the shared buffer
holds only the running maximum of what was exported before), and when
some earlier exported program is strictly larger, the stored program is
strictly longer than the degenerate export, that is, it carries trailing
leftover words. -/
theorem c8_empty_group_amended (B : Backend) (io' : SysFlags)
    (doc : List (String × Filter)) (arch : TargetArch) (basic : Bool)
    (iter : List (String × List Nat) → List (String × List Nat))
    (k : Nat) (name : String) (f : Filter)
    (hB : GoodBackend B) (hio : GoodSys io') (hres : allResolveDoc B doc = true)
    (hk : k < doc.length)
    (hkd : doc.getD k ("", ⟨Action.allow, Action.allow, []⟩) = (name, f))
    (hempty : f.filter = []) :
    (compileBpfCore B io' doc arch basic iter).outcome = Outcome.ok ∧
    (∀ c : List Nat, (processGroup B io' arch basic k f (c, 0)).1 =
      [Event.initCtx f.default_action, Event.archAdd arch, Event.exportBpf k]) ∧
    ((compileBpfCore B io' doc arch basic iter).artifact.getD k ("", [])).1 = name ∧
    (((compileBpfCore B io' doc arch basic iter).artifact.map Prod.snd).getD k
        []).take (B.exportProg f.default_action arch []).length =
      B.exportProg f.default_action arch [] ∧
    (B.exportProg f.default_action arch [] ≠ [] →
      ((compileBpfCore B io' doc arch basic iter).artifact.map Prod.snd).getD k [] ≠
        []) ∧
    ((((compileBpfCore B io' doc arch basic iter).artifact.map Prod.snd).getD k [] =
        B.exportProg f.default_action arch []) ↔
      ∀ i, i < k → ((exportsOf B arch basic doc).getD i []).length ≤
        (B.exportProg f.default_action arch []).length) ∧
    (∀ i, i < k →
      (B.exportProg f.default_action arch []).length <
        ((exportsOf B arch basic doc).getD i []).length →
      (B.exportProg f.default_action arch []).length <
        (((compileBpfCore B io' doc arch basic iter).artifact.map Prod.snd).getD k
          []).length) := by
  have hgood := compileBpfCore_good B io' doc arch basic iter hB hio hres
  have hps : (exportsOf B arch basic doc).length = doc.length := by simp [exportsOf]
  have hlen : (compileBpfCore B io' doc arch basic iter).artifact.length =
      doc.length := by
    have h := congrArg List.length hgood.2.2
    simpa using h
  have he : groupExport B arch basic f = B.exportProg f.default_action arch [] := by
    simp [groupExport, groupEntries, hempty]
  have hpsk : (exportsOf B arch basic doc).getD k [] = groupExport B arch basic f := by
    simp only [exportsOf]
    rw [getD_map_of_lt (fun nf => groupExport B arch basic nf.2) doc k
      ("", ⟨Action.allow, Action.allow, []⟩) [] hk, hkd]
  have htake : (((compileBpfCore B io' doc arch basic iter).artifact.map
      Prod.snd).getD k []).take (B.exportProg f.default_action arch []).length =
      B.exportProg f.default_action arch [] := by
    rw [hgood.2.1, ← he, ← hpsk]
    exact storedSeq_getD_take (exportsOf B arch basic doc) [] k (by omega)
  have hstlen : (((compileBpfCore B io' doc arch basic iter).artifact.map
      Prod.snd).getD k []).length =
      maxLen ((exportsOf B arch basic doc).take (k + 1)) := by
    rw [hgood.2.1, storedSeq_getD_length (exportsOf B arch basic doc) [] k (by omega)]
    simp
  have hlow : (B.exportProg f.default_action arch []).length ≤
      maxLen ((exportsOf B arch basic doc).take (k + 1)) := by
    rw [← he, ← hpsk]
    exact getD_length_le_maxLen_take (exportsOf B arch basic doc) k k (le_refl k)
      (by omega)
  have hiff : (((compileBpfCore B io' doc arch basic iter).artifact.map
        Prod.snd).getD k [] = B.exportProg f.default_action arch []) ↔
      ∀ i, i < k → ((exportsOf B arch basic doc).getD i []).length ≤
        (B.exportProg f.default_action arch []).length := by
    constructor
    · intro heq i hik
      have h1 : maxLen ((exportsOf B arch basic doc).take (k + 1)) ≤
          (B.exportProg f.default_action arch []).length := by
        rw [← hstlen, heq]
      exact (maxLen_take_le_iff (exportsOf B arch basic doc) (k + 1)
        (B.exportProg f.default_action arch []).length (by omega)).mp h1 i (by omega)
    · intro hall
      have hup : maxLen ((exportsOf B arch basic doc).take (k + 1)) ≤
          (B.exportProg f.default_action arch []).length := by
        refine (maxLen_take_le_iff (exportsOf B arch basic doc) (k + 1)
          (B.exportProg f.default_action arch []).length (by omega)).mpr ?_
        intro i hik1
        by_cases hik : i < k
        · exact hall i hik
        · have hik2 : i = k := by omega
          subst hik2
          rw [hpsk, he]
      have heqlen : (((compileBpfCore B io' doc arch basic iter).artifact.map
          Prod.snd).getD k []).length =
          (B.exportProg f.default_action arch []).length := by
        rw [hstlen]
        omega
      calc ((compileBpfCore B io' doc arch basic iter).artifact.map Prod.snd).getD k []
          = (((compileBpfCore B io' doc arch basic iter).artifact.map
              Prod.snd).getD k []).take
              (((compileBpfCore B io' doc arch basic iter).artifact.map
                Prod.snd).getD k []).length := (List.take_length _).symm
        _ = (((compileBpfCore B io' doc arch basic iter).artifact.map
              Prod.snd).getD k []).take
              (B.exportProg f.default_action arch []).length := by rw [heqlen]
        _ = B.exportProg f.default_action arch [] := htake
  have hlonger : ∀ i, i < k →
      (B.exportProg f.default_action arch []).length <
        ((exportsOf B arch basic doc).getD i []).length →
      (B.exportProg f.default_action arch []).length <
        (((compileBpfCore B io' doc arch basic iter).artifact.map Prod.snd).getD k
          []).length := by
    intro i hik hlt
    have hge := getD_length_le_maxLen_take (exportsOf B arch basic doc) i k
      (by omega) (by omega)
    rw [hstlen]
    omega
  refine ⟨hgood.1, ?_, ?_, htake, ?_, hiff, hlonger⟩
  · intro c
    have hpg := processGroup_ok B io' arch basic k f c (hB.1 k) (hB.2.1 k)
      (hB.2.2.1 k) (hB.2.2.2 k) (hio.2.1 k) (hio.2.2.1 k) (hio.2.2.2.1 k)
      (hio.2.2.2.2.1 k) (by simp [hempty])
    rw [hpg]
    simp [hempty, processRules]
  · calc ((compileBpfCore B io' doc arch basic iter).artifact.getD k ("", [])).1
        = ((compileBpfCore B io' doc arch basic iter).artifact.map Prod.fst).getD
            k "" := by
          rw [getD_map_of_lt Prod.fst _ k ("", []) "" (by omega)]
      _ = (doc.map Prod.fst).getD k "" := by rw [hgood.2.2]
      _ = name := by
          rw [getD_map_of_lt Prod.fst doc k ("", ⟨Action.allow, Action.allow, []⟩)
            "" hk, hkd]
  · intro hne hnil
    rw [hnil] at htake
    simp only [List.take_nil] at htake
    exact hne htake.symm

/-- Witness for C8 amended at a concrete input: the empty second group
of exDoc compiles, issues exactly context creation, architecture
registration and export, is stored under its name, its stored program is
non-empty, and because the first group exported a strictly larger
program, the stored program is strictly longer than the degenerate
export of the empty group. -/
theorem c8_empty_group_amended_witness :
    (compileBpfCore exB allGoodSys exDoc TargetArch.x86_64 false id).outcome =
      Outcome.ok ∧
    (processGroup exB allGoodSys TargetArch.x86_64 false 1
        (⟨Action.killProcess, Action.allow, []⟩ : Filter) ([], 0)).1 =
      [Event.initCtx Action.killProcess, Event.archAdd TargetArch.x86_64,
        Event.exportBpf 1] ∧
    ((compileBpfCore exB allGoodSys exDoc TargetArch.x86_64 false id).artifact.getD 1
        ("", [])).1 = "b" ∧
    ((compileBpfCore exB allGoodSys exDoc TargetArch.x86_64 false id).artifact.map
        Prod.snd).getD 1 [] ≠ [] ∧
    (exB.exportProg Action.killProcess TargetArch.x86_64 []).length <
      (((compileBpfCore exB allGoodSys exDoc TargetArch.x86_64 false id).artifact.map
        Prod.snd).getD 1 []).length := by
  have h := c8_empty_group_amended exB allGoodSys exDoc TargetArch.x86_64 false id 1
    "b" ⟨Action.killProcess, Action.allow, []⟩
    ⟨fun _ => rfl, fun _ => rfl, fun _ _ => rfl, fun _ => rfl⟩
    ⟨rfl, fun _ => rfl, fun _ => rfl, fun _ => rfl, fun _ => rfl, rfl, rfl⟩
    (by decide) (by decide) (by decide) rfl
  exact ⟨h.1, h.2.1 [], h.2.2.1, h.2.2.2.2.1 (by decide),
    h.2.2.2.2.2.2 0 (by decide) (by decide)⟩

/-- C9: when registering the architecture with the context of a group, a zero
return and the MINUS_EEXIST already-registered return are both treated
as success, and every other return makes the group processing fail with
the LibSeccompAddArch error; no other return is tolerated. -/
theorem c9_arch_registration_tristate (B : Backend) (io' : SysFlags)
    (arch : TargetArch) (basic : Bool) (g : Nat) (f : Filter) (buf : List Nat × Nat)
    (hinit : B.initOk g = true) :
    (archAddCheck (B.archAddRet g) = none ↔
      (B.archAddRet g = 0 ∨ B.archAddRet g = MINUS_EEXIST)) ∧
    (((processGroup B io' arch basic g f buf).2 =
        StepResult.err CompilationError.LibSeccompAddArch) ↔
      ¬ (B.archAddRet g = 0 ∨ B.archAddRet g = MINUS_EEXIST)) := by
  constructor
  · by_cases h : B.archAddRet g = 0 ∨ B.archAddRet g = MINUS_EEXIST
    · have hn : ¬ (B.archAddRet g ≠ 0 ∧ B.archAddRet g ≠ MINUS_EEXIST) := by tauto
      simp [archAddCheck, hn, h]
    · have hy : B.archAddRet g ≠ 0 ∧ B.archAddRet g ≠ MINUS_EEXIST := by tauto
      simp [archAddCheck, hy, h]
  · exact processGroup_arch_err_iff B io' arch basic g f buf hinit

/-- Witness for C9 at a concrete input: the concrete backend returns 0,
so its registration check succeeds and the group does not fail with the
architecture error. -/
theorem c9_arch_registration_tristate_witness :
    (archAddCheck (exB.archAddRet 0) = none ↔
      (exB.archAddRet 0 = 0 ∨ exB.archAddRet 0 = MINUS_EEXIST)) ∧
    (((processGroup exB allGoodSys TargetArch.x86_64 false 0
          (⟨Action.killProcess, Action.allow, []⟩ : Filter) ([], 0)).2 =
        StepResult.err CompilationError.LibSeccompAddArch) ↔
      ¬ (exB.archAddRet 0 = 0 ∨ exB.archAddRet 0 = MINUS_EEXIST)) :=
  c9_arch_registration_tristate exB allGoodSys TargetArch.x86_64 false 0
    ⟨Action.killProcess, Action.allow, []⟩ ([], 0) rfl

/-- C10: the metadata query on the memfd is the one point of the
pipeline whose failure is not reported as a typed error: if every
metadata query succeeds no run ever panics, whatever else fails, and a
run that reaches a failing metadata query right after a successful
export ends in a panic instead of a typed error. -/
theorem c10_metadata_unwrap_panic :
    (∀ (B : Backend) (io' : SysFlags) (doc : List (String × Filter))
        (arch : TargetArch) (basic : Bool)
        (iter : List (String × List Nat) → List (String × List Nat)),
      (∀ g, io'.metadataOk g = true) →
      (compileBpfCore B io' doc arch basic iter).outcome ≠ Outcome.panicked) ∧
    (∀ (B : Backend) (io' : SysFlags) (doc : List (String × Filter))
        (arch : TargetArch) (basic : Bool)
        (iter : List (String × List Nat) → List (String × List Nat)),
      GoodBackend B → allResolveDoc B doc = true → io'.memfdCreateOk = true →
      (∀ g, io'.rewind1Ok g = true) → (∀ g, io'.metadataOk g = false) → doc ≠ [] →
      (compileBpfCore B io' doc arch basic iter).outcome = Outcome.panicked) := by
  constructor
  · intro B io' doc arch basic iter hm
    have hne := compileGroups_ne_panicked B io' arch basic hm doc 0 ([], 0)
    by_cases hmem : io'.memfdCreateOk = true
    · rcases hst : (compileGroups B io' arch basic doc 0 ([], 0)).status with _ | e | _
      · by_cases hoc : io'.outputCreateOk = true <;>
          by_cases hser : io'.serializeOk = true <;>
          simp [compileBpfCore, hmem, hst, hoc, hser]
      · simp [compileBpfCore, hmem, hst]
      · exact absurd hst hne
    · simp [compileBpfCore, hmem]
  · intro B io' doc arch basic iter hB hres hmem hr1 hm hne
    have hp := compileGroups_panics B io' arch basic hB hr1 hm doc 0 ([], 0) hne hres
    simp [compileBpfCore, hmem, hp]

/-- Witness for C10 at a concrete input: with every OS call succeeding
except the metadata query, the concrete two-group run panics. -/
theorem c10_metadata_unwrap_panic_witness :
    (compileBpfCore exB badMetaSys exDoc TargetArch.x86_64 false id).outcome =
      Outcome.panicked :=
  c10_metadata_unwrap_panic.2 exB badMetaSys exDoc TargetArch.x86_64 false id
    ⟨fun _ => rfl, fun _ => rfl, fun _ _ => rfl, fun _ => rfl⟩ (by decide) rfl
    (fun _ => rfl) (fun _ => rfl) (by decide)

end Seccomp
